import Mathlib

/-!
Verification of the acServer log monitor (`monitor.py`).

The monitor tails the Assetto Corsa server log, maintains a session state
(online drivers, best laps per driver and car, track context), persists it as
JSON, and posts / edits Discord webhook messages.  The definitions below are a
shallow embedding of `Monitor.parse_lines` and the handlers it calls
(`driver_connects`, `driver_disconnects`, `new_track`,
`delete_online_messages`, `save_and_archive_state`,
`update_state_with_race_json`, `send_laps`, `to_ms`) together with the JSON
persistence round trip.  Python dictionaries are modelled as association
lists with in-place first-occurrence update (insertion order preserved, as in
CPython); Python `int` values are `Int`; a raised exception is an
`Except.error`; every outbound webhook call and every state write of interest
is recorded chronologically in a list of `Act` values, with the external
service's replies supplied by oracle fields of `Config`.
-/

/-- Python `line.find(p) == 0`: `line` starts with the marker `p`. -/
def strStarts (s p : String) : Bool := p.data.isPrefixOf s.data

/-- Character-level worker for Python `s.split(sep)` with a non-empty
separator: split at each non-overlapping occurrence, left to right.  The
fuel argument (instantiated with the input length) only makes the recursion
structural; it is never exhausted. -/
def pySplitAux (sep : List Char) : Nat → List Char → List (List Char)
  | _, [] => [[]]
  | 0, l => [l]
  | fuel + 1, c :: rest =>
    if sep ≠ [] ∧ sep.isPrefixOf (c :: rest) then
      [] :: pySplitAux sep fuel ((c :: rest).drop sep.length)
    else
      match pySplitAux sep fuel rest with
      | [] => [[c]]
      | f :: fs => (c :: f) :: fs

/-- Python `s.split(sep)` (always a non-empty list of fields). -/
def pySplit (s sep : String) : List String :=
  (pySplitAux sep.data s.data.length s.data).map (fun l => String.mk l)

/-- Python `s.strip()`: drop leading and trailing whitespace. -/
def pyTrim (s : String) : String :=
  String.mk (((s.data.dropWhile Char.isWhitespace).reverse.dropWhile Char.isWhitespace).reverse)

/-- Python `s.replace(c, r)` for a one-character pattern, the only form the
monitor uses (`'*'` removal and `' '` to `'.'`). -/
def pyReplace1 (s : String) (c : Char) (r : String) : String :=
  String.mk ((s.data.map (fun ch => if ch = c then r.data else [ch])).flatten)

/-- Decimal digit-string parsing (the all-digits core of Python `int`). -/
def digitsToNat? (l : List Char) : Option Nat :=
  if l.isEmpty then none
  else if l.all Char.isDigit then
    some (l.foldl (fun acc c => acc * 10 + (c.toNat - 48)) 0)
  else none

/-- Python `s.split(sep)[-1]`: last field of a split (split never yields an
empty list). -/
def lastPart (s sep : String) : String :=
  (pySplit s sep).getLastD ""

/-- Python `s.split(sep)[0]`: first field of a split. -/
def firstPart (s sep : String) : String :=
  match pySplit s sep with
  | h :: _ => h
  | [] => ""

/-- Python `int(s)` on a string: optional surrounding whitespace, optional
sign, then decimal digits; anything else raises `ValueError`.
(Python additionally accepts unicode digits and grouping underscores, which
never occur in this log grammar.) -/
def pyInt (s : String) : Except String Int :=
  let t := pyTrim s
  let core := if strStarts t "-" || strStarts t "+" then t.data.drop 1 else t.data
  match digitsToNat? core with
  | some n => if strStarts t "-" then Except.ok (-(n : Int)) else Except.ok (n : Int)
  | none => Except.error ("invalid literal for int with base 10: " ++ s)

/-- `Monitor.to_ms`: `s.split(':')`, then
`int(s[0])*60000 + int(s[1])*1000 + int(s[2])` (an `IndexError` if the split
has fewer than three fields; extra fields beyond the third are ignored, as in
the source). -/
def to_ms (s : String) : Except String Int :=
  match pySplit s ":" with
  | a :: b :: c :: _ => do
    let m ← pyInt a
    let sec ← pyInt b
    let ms ← pyInt c
    Except.ok (m * 60000 + sec * 1000 + ms)
  | _ => Except.error "IndexError: list index out of range"

instance {ε α : Type} [DecidableEq ε] [DecidableEq α] : DecidableEq (Except ε α) :=
  fun a b =>
    match a, b with
    | Except.ok x, Except.ok y =>
      if h : x = y then isTrue (by rw [h]) else
        isFalse (fun hc => h (Except.ok.inj hc))
    | Except.error x, Except.error y =>
      if h : x = y then isTrue (by rw [h]) else
        isFalse (fun hc => h (Except.error.inj hc))
    | Except.ok _, Except.error _ => isFalse (fun hc => Except.noConfusion hc)
    | Except.error _, Except.ok _ => isFalse (fun hc => Except.noConfusion hc)

/-- Truthiness of an optional string (Python: `None` and `''` are falsy). -/
def pyTruthyS : Option String → Bool
  | some s => !(s == "")
  | none => false

/-- Truthiness of an optional integer (Python: `None` and `0` are falsy). -/
def pyTruthyI : Option Int → Bool
  | some i => !(i == 0)
  | none => false

/-- Python `s[0:k]` where `k` may be negative (a negative bound counts from
the end of the string). -/
def pySliceTo (s : String) (k : Int) : String :=
  if 0 ≤ k then ⟨s.data.take k.toNat⟩
  else ⟨s.data.take (s.data.length - (-k).toNat)⟩

/-- Lookup in a Python dictionary modelled as an association list. -/
def alGet? {α β : Type} [DecidableEq α] : List (α × β) → α → Option β
  | [], _ => none
  | p :: rest, k => if p.1 = k then some p.2 else alGet? rest k

/-- Python `d[k] = v`: update the first entry for `k` in place, otherwise
append (CPython keeps insertion order and updates in place). -/
def alSet {α β : Type} [DecidableEq α] : List (α × β) → α → β → List (α × β)
  | [], k, v => [(k, v)]
  | p :: rest, k, v => if p.1 = k then (k, v) :: rest else p :: alSet rest k v

/-- Python `d.pop(k)`: remove the entry for `k` (keys are unique in a dict,
so removing the first occurrence is exact). -/
def alErase {α β : Type} [DecidableEq α] : List (α × β) → α → List (α × β)
  | [], _ => []
  | p :: rest, k => if p.1 = k then rest else p :: alErase rest k

/-- One lap record: `{'time': t, 'time_ms': t_ms, 'cuts': cuts}`. -/
structure LapRecord where
  time : String
  time_ms : Int
  cuts : Int
deriving DecidableEq, Repr

/-- One online driver: `{'id': message_id, 'car': carname}`.  The car is the
last requested car at join time and may be `None`. -/
structure DriverSession where
  id : Option Int
  car : Option String
deriving DecidableEq, Repr

/-- A lap table: name -> car -> record.  The car key is `None` when the
driver joined with no requested car on record. -/
abbrev LapTable : Type := List (String × List (Option String × LapRecord))

/-- `Monitor.state`: the persisted session state dictionary. -/
structure State where
  online : List (String × DriverSession)
  track_name : Option String
  track_directory : Option String
  track_message_id : Option Int
  archive_path : Option String
  laps : LapTable
  naughties : LapTable
  carset : Option String
deriving DecidableEq, Repr

/-- `Monitor.reset_state`: the empty state. -/
def reset_state : State :=
  { online := [], track_name := none, track_directory := none
  , track_message_id := none, archive_path := none
  , laps := [], naughties := [], carset := none }

/-- The `race.json` document (only the fields the monitor reads). -/
structure RaceJson where
  track_name : String
  track_directory : String
  carset : Option String
  cars : List (String × String)
deriving DecidableEq, Repr

/-- Static configuration (the `monitor.ini` settings and the `parse_lines`
flags) together with oracles for the external webhook service's replies:
`sendLogId` / `sendLapsId` are the message ids returned by a successful
`webhook.send` (`none` models a raised send error), `editOk` tells whether
`edit_message` succeeds. -/
structure Config where
  server_name : String
  log_drivers : Bool
  update_laps : Bool
  do_not_save_state : Bool
  webhook_log : Bool
  webhook_laps : Bool
  race_json : Option RaceJson
  url_more_laps : Option String
  sendLogId : Option Int
  sendLapsId : Option Int
  editOk : Bool
deriving DecidableEq, Repr

/-- Chronological trace of the observable actions of one event handler:
outbound webhook calls (`net...`), session-state writes of the claims'
interest (`w...`), and persistence. -/
inductive Act where
  | netSendLog (msg : String)
  | netDeleteLog (id : Int)
  | netEditLaps (id : Int) (msg : String)
  | netSendLaps (msg : String)
  | persist
  | archiveCopy (path : String)
  | wOnline (name : String)
  | wRemoveOnline (name : String)
  | wLap (name : String)
deriving DecidableEq, Repr

/-- `Monitor.save_and_archive_state(skip)`: recompute `archive_path` from the
track directory and the current timestamp, dump `state.json`, copy to the
archive when an archive path is set. -/
def save_and_archive_state (skip : Bool) (timestamp : Option String) (st : State) :
    State × List Act :=
  if skip then (st, [])
  else
    let ap : Option String :=
      if pyTruthyS st.track_directory && pyTruthyS timestamp then
        some ("web/archive/" ++ timestamp.getD "" ++ st.track_directory.getD "" ++ ".json")
      else none
    let st2 := { st with archive_path := ap }
    (st2, Act.persist :: (match ap with | some p => [Act.archiveCopy p] | none => []))

/-- `Monitor.update_state_with_race_json`: if a race.json is configured and
its track name or carset differs from the state, clear the laps table and the
leaderboard message id and take the track fields from the document, then
save.  (The source also fires when a legacy snapshot lacks the `carset` key;
the model's state always carries the field.) -/
def update_state_with_race_json (cfg : Config) (timestamp : Option String) (st : State) :
    State × List Act :=
  match cfg.race_json with
  | none => (st, [])
  | some rj =>
    if some rj.track_name ≠ st.track_name ∨ rj.carset ≠ st.carset then
      let st1 := if pyTruthyI st.track_message_id then { st with track_message_id := none } else st
      let st2 := { st1 with laps := [], track_name := some rj.track_name,
                            track_directory := some rj.track_directory, carset := rj.carset }
      save_and_archive_state false timestamp st2
    else (st, [])

/-- `Monitor.delete_online_messages`: iterate over `state['online']`, delete
each stored message id, pop the entry.  CPython raises `RuntimeError`
(dictionary changed size during iteration) at the next iterator step after
the first `pop`, so on a non-empty roster exactly one entry is processed and
the call then raises; on an empty roster it is a no-op. -/
def delete_online_messages (_cfg : Config) (st : State) : Except String (State × List Act) :=
  match st.online with
  | [] => Except.ok (st, [])
  | (_, _) :: _ => Except.error "RuntimeError: dictionary changed size during iteration"

/-- The per-`parse_lines`-call loop variables: the session state, the pending
requested car, the bounded recent-line window (most recent first), the
effective archive timestamp and the last observed timestamp candidate. -/
structure LoopState where
  st : State
  last_requested_car : Option String
  history : List String
  timestamp : Option String
  timestamp_last : Option String
deriving DecidableEq, Repr

/-- The key-comparison relation used to model Python `sorted(l, key=k)`. -/
def keyLE {α : Type} (k : α → Int) (a b : α) : Prop := k a ≤ k b

instance {α : Type} (k : α → Int) : DecidableRel (keyLE k) :=
  fun a b => Int.decLe (k a) (k b)

instance {α : Type} (k : α → Int) : IsTotal α (keyLE k) :=
  ⟨fun a b => Int.le_total (k a) (k b)⟩

instance {α : Type} (k : α → Int) : IsTrans α (keyLE k) :=
  ⟨fun _ _ _ h1 h2 => le_trans h1 h2⟩

/-- Python `sorted(l, key=k)`: a stable sort by the integer key.  CPython's
Timsort and insertion sort are both stable, so they agree on every input. -/
def pySorted {α : Type} (k : α → Int) (l : List α) : List α :=
  List.insertionSort (keyLE k) l

/-- The leaderboard entry tuple `(record, name, car)` appended by
`Monitor.send_laps` for each driver. -/
abbrev Entry : Type := LapRecord × String × Option String

/-- Precompute the sort key `to_ms(carlap[1]['time'])` for each `(car, record)`
pair of one driver, as Python `sorted` evaluates the key function once per
element before comparing (raising on the first malformed time). -/
def keyCarlaps : List (Option String × LapRecord) →
    Except String (List ((Option String × LapRecord) × Int))
  | [] => Except.ok []
  | q :: rest => do
    let k ← to_ms q.2.time
    let tl ← keyCarlaps rest
    Except.ok ((q, k) :: tl)

/-- The per-driver pass of `Monitor.send_laps`: for each driver with at least
one `(car, record)` entry, sort that driver's entries by `to_ms` of the time
string and append the best as `(record, name, car)`, in table order. -/
def bestsOf : LapTable → Except String (List Entry)
  | [] => Except.ok []
  | (name, cls) :: rest =>
    match cls with
    | [] => bestsOf rest
    | _ :: _ => do
      let keyed ← keyCarlaps cls
      let tl ← bestsOf rest
      match pySorted (fun q => q.2) keyed with
      | [] => Except.ok tl
      | ((c, r), _) :: _ => Except.ok ((r, name, c) :: tl)

/-- Precompute the final sort key `to_ms(i[0]['time'])` for each best
entry. -/
def keyEntries : List Entry → Except String (List (Entry × Int))
  | [] => Except.ok []
  | e :: rest => do
    let k ← to_ms e.1.time
    let tl ← keyEntries rest
    Except.ok ((e, k) :: tl)

/-- The sorted leaderboard of `Monitor.send_laps`: the per-driver bests,
sorted ascending by `to_ms` of the time string. -/
def send_laps_entries (st : State) : Except String (List Entry) := do
  let bests ← bestsOf st.laps
  let keyed ← keyEntries bests
  Except.ok ((pySorted (fun q => q.2) keyed).map (fun q => q.1))

/-- One rendered leaderboard line per rank:
`'**'+str(n+1)+'.** '+time+' '+name+' ('+car+')\n'`.  A `None` car raises
`TypeError` in the string concatenation, as in Python. -/
def renderEntries (rank : Nat) : List Entry → Except String String
  | [] => Except.ok ""
  | (r, name, car) :: rest => do
    let c ← match car with
      | some c => Except.ok c
      | none => Except.error "TypeError: can only concatenate str to str"
    let tl ← renderEntries (rank + 1) rest
    Except.ok ("**" ++ toString rank ++ ".** " ++ r.time ++ " " ++ name ++ " (" ++ c ++ ")\n" ++ tl)

/-- The full leaderboard message of `Monitor.send_laps`: header (carset and
track name when set), ranked entries, footer, 2000-character truncation. -/
def send_laps_message (cfg : Config) (st : State) : Except String String := do
  let s ← send_laps_entries st
  let m0 := "@everyone\n**This week: "
  let m1 := if pyTruthyS st.carset then m0 ++ st.carset.getD "" ++ " at " else m0
  let tn := if pyTruthyS st.track_name then st.track_name else st.track_directory
  let m2 := if pyTruthyS tn then m1 ++ tn.getD "" ++ "!**\n\n" else m1
  let body ← renderEntries 1 s
  let m3 := m2 ++ body
  let footer := match cfg.url_more_laps with
    | some u => "\n**More:** " ++ u
    | none => ""
  if 2000 < (m3 ++ footer).length then
    Except.ok (pySliceTo m3 (2000 - 7 - (footer.length : Int)) ++ " ... " ++ footer)
  else
    Except.ok (m3 ++ footer)

/-- `Monitor.send_laps`: render the message, then edit the stored leaderboard
message if an id exists (falling back to a fresh send, storing the new id and
saving, when the edit fails), else send fresh and store the id.  All webhook
failures are swallowed. -/
def send_laps (cfg : Config) (timestamp : Option String) (st : State) :
    Except String (State × List Act) := do
  let msg ← send_laps_message cfg st
  if cfg.webhook_laps then
    match st.track_message_id with
    | some i =>
      if i ≠ 0 then
        if cfg.editOk then Except.ok (st, [Act.netEditLaps i msg])
        else
          let st2 := match cfg.sendLapsId with
            | some j => { st with track_message_id := some j }
            | none => st
          let (st3, a) := save_and_archive_state false timestamp st2
          Except.ok (st3, Act.netEditLaps i msg :: Act.netSendLaps msg :: a)
      else
        let st2 := match cfg.sendLapsId with
          | some j => { st with track_message_id := some j }
          | none => st
        let (st3, a) := save_and_archive_state false timestamp st2
        Except.ok (st3, Act.netSendLaps msg :: a)
    | none =>
      let st2 := match cfg.sendLapsId with
        | some j => { st with track_message_id := some j }
        | none => st
      let (st3, a) := save_and_archive_state false timestamp st2
      Except.ok (st3, Act.netSendLaps msg :: a)
  else
    Except.ok (st, [])

/-- The history scan of the lap-completed branch: the most recent line in the
window that begins with `'LAP '` but not with `'LAP WITH CUTS'`. -/
def find_lap_line (hist : List String) : Option String :=
  hist.find? (fun l => strStarts l "LAP " && !(strStarts l "LAP WITH CUTS"))

/-- Name and time extraction from a `LAP` line:
`s = l[4:].split(' ')`, time is the last element stripped, name is the
space-join of the rest. -/
def lap_name_time (l : String) : String × String :=
  let s := pySplit (l.drop 4) " "
  (" ".intercalate s.dropLast, pyTrim (s.getLastD ""))

/-- Select the lap table named by the cut count: `naughties` if `cuts` is
truthy, else `laps`. -/
def getTable (st : State) (naughty : Bool) : LapTable :=
  if naughty then st.naughties else st.laps

/-- Write back the selected lap table. -/
def setTable (st : State) (naughty : Bool) (tbl : LapTable) : State :=
  if naughty then { st with naughties := tbl } else { st with laps := tbl }

/-- `if not n in self.state[laps]: self.state[laps][n] = dict()` — performed
before the online check; creates an empty per-driver sub-table. -/
def lap_table_ensure (tbl : LapTable) (n : String) : LapTable :=
  match alGet? tbl n with
  | none => alSet tbl n []
  | some _ => tbl

/-- The record upsert of the lap-completed branch: store the new record iff
no record exists for the car or the new time in ms is strictly smaller than
the stored `time_ms`; the boolean reports whether the store fired. -/
def lap_check_and_set (inner : List (Option String × LapRecord)) (c : Option String)
    (t : String) (tms cuts : Int) : List (Option String × LapRecord) × Bool :=
  match alGet? inner c with
  | none => (alSet inner c ⟨t, tms, cuts⟩, true)
  | some r =>
    if tms < r.time_ms then (alSet inner c ⟨t, tms, cuts⟩, true) else (inner, false)

/-- The full lap-table effect of one lap event for key `(n, c)`:
ensure the driver sub-table, then conditionally upsert. -/
def lap_apply (tbl : LapTable) (n : String) (c : Option String)
    (t : String) (tms cuts : Int) : LapTable × Bool :=
  let tbl1 := lap_table_ensure tbl n
  let inner := (alGet? tbl1 n).getD []
  let (inner2, fired) := lap_check_and_set inner c t tms cuts
  (if fired then alSet tbl1 n inner2 else tbl1, fired)

/-- The body of the `Result.OnLapCompleted` branch once the matching `LAP`
line `l` has been found: parse the time, ensure the driver's sub-table, drop
the event if the driver is offline, else upsert and (when the record
improved) persist and update the leaderboard. -/
def lap_branch (cfg : Config) (timestamp : Option String) (st : State)
    (cuts : Int) (l : String) : Except String (State × List Act) := do
  let nt := lap_name_time l
  let n := nt.1
  let t := nt.2
  let tms ← to_ms t
  let naughty := !(cuts == 0)
  let st1 := setTable st naughty (lap_table_ensure (getTable st naughty) n)
  match alGet? st1.online n with
  | none => Except.ok (st1, [])
  | some d =>
    let c := d.car
    let inner := (alGet? (getTable st1 naughty) n).getD []
    let cs := lap_check_and_set inner c t tms cuts
    if cs.2 then
      let st2 := setTable st1 naughty (alSet (getTable st1 naughty) n cs.1)
      let (st3, a1) := save_and_archive_state cfg.do_not_save_state timestamp st2
      if cfg.update_laps then do
        let (st4, a2) ← send_laps cfg timestamp st3
        Except.ok (st4, Act.wLap n :: (a1 ++ a2))
      else
        Except.ok (st3, Act.wLap n :: a1)
    else
      Except.ok (st1, [])

/-- `Monitor.driver_connects`: compose the join message (appending the
pending requested car when truthy), send it on the log webhook when enabled
(the returned id, `none` on failure, is stored), overwrite the driver's
online entry, save, clear the pending car. -/
def driver_connects (cfg : Config) (ls : LoopState) (name : String) :
    LoopState × List Act :=
  let m0 := name ++ " is on " ++ cfg.server_name ++ "!"
  let message :=
    if pyTruthyS ls.last_requested_car then m0 ++ "\n" ++ ls.last_requested_car.getD ""
    else m0
  let ia :=
    if cfg.log_drivers && cfg.webhook_log then (cfg.sendLogId, [Act.netSendLog message])
    else ((none : Option Int), ([] : List Act))
  let st1 := { ls.st with online := alSet ls.st.online name ⟨ia.1, ls.last_requested_car⟩ }
  let sa := save_and_archive_state cfg.do_not_save_state ls.timestamp st1
  ({ ls with st := sa.1, last_requested_car := none }, ia.2 ++ Act.wOnline name :: sa.2)

/-- `Monitor.driver_disconnects`: when the driver is online, best-effort
delete the stored join message (only attempted when the log webhook exists
and a truthy id is stored), remove the roster entry, save; otherwise a
no-op. -/
def driver_disconnects (cfg : Config) (ls : LoopState) (name : String) :
    LoopState × List Act :=
  match alGet? ls.st.online name with
  | none => (ls, [])
  | some d =>
    let a1 :=
      if cfg.webhook_log && pyTruthyI d.id then [Act.netDeleteLog (d.id.getD 0)]
      else []
    let st1 := { ls.st with online := alErase ls.st.online name }
    let sa := save_and_archive_state cfg.do_not_save_state ls.timestamp st1
    ({ ls with st := sa.1 }, a1 ++ Act.wRemoveOnline name :: sa.2)

/-- `Monitor.new_track`: commit the pending timestamp, save and archive the
outgoing state, reset the whole state (this clears the online roster), run
the per-driver message cleanup (over the now-empty roster), set the new
track directory, reconcile with race.json, save and archive again, send the
empty leaderboard. -/
def new_track (cfg : Config) (timestamp_last : Option String) (st : State)
    (dir : String) : Except String (State × List Act) := do
  let ts := timestamp_last
  let sa1 := save_and_archive_state false ts st
  let st2 := reset_state
  let (st3, a2) ← delete_online_messages cfg st2
  let st4 := { st3 with track_directory := some dir }
  let ur := update_state_with_race_json cfg ts st4
  let sa2 := save_and_archive_state false ts ur.1
  let (st7, a5) ← send_laps cfg ts sa2.1
  Except.ok (st7, sa1.2 ++ a2 ++ ur.2 ++ sa2.2 ++ a5)

/-- The `REQUESTED CAR:` branch: strip the wildcard and whitespace from the
remainder, then reverse-look-up the friendly car name in race.json when the
directory id appears among its values. -/
def requested_car_name (cfg : Config) (line : String) : String :=
  let car := pyTrim (pyReplace1 (line.drop 14) '*' "")
  match cfg.race_json with
  | some rj =>
    if rj.cars.any (fun p => p.2 == car) then
      match rj.cars.find? (fun p => p.2 == car) with
      | some p => p.1
      | none => car
    else car
  | none => car

/-- One iteration of the `for line in lines` loop of `Monitor.parse_lines`:
push the line into the bounded history window, then dispatch on the fixed
prefix table in source order.  An uncaught Python exception is an
`Except.error`. -/
def step (cfg : Config) (ls0 : LoopState) (line : String) :
    Except String (LoopState × List Act) :=
  let ls := { ls0 with history := (line :: ls0.history).take 10 }
  if strStarts line "REQUESTED CAR:" then
    Except.ok ({ ls with last_requested_car := some (requested_car_name cfg line) }, [])
  else if strStarts line "DRIVER:" then
    Except.ok (driver_connects cfg ls (pyTrim (firstPart (line.drop 7) "[")))
  else if strStarts line "Clean exit, driver disconnected" then
    Except.ok (driver_disconnects cfg ls (pyTrim (firstPart (line.drop 33) "[")))
  else if strStarts line "Connection is now closed" then
    Except.ok (driver_disconnects cfg ls (pyTrim (firstPart (line.drop 28) "[")))
  else if strStarts line "Result.OnLapCompleted" then do
    let cuts ← pyInt (lastPart line "Cuts:")
    match find_lap_line ls.history with
    | none => Except.ok (ls, [])
    | some l => do
      let (st2, acts) ← lap_branch cfg ls.timestamp ls.st cuts l
      Except.ok ({ ls with st := st2 }, acts)
  else if strStarts line "TRACK=" && !(ls.st.track_directory == some (pyTrim (lastPart line "="))) then do
    let (st2, acts) ← new_track cfg ls.timestamp_last ls.st (pyTrim (lastPart line "="))
    Except.ok ({ ls with st := st2, timestamp := ls.timestamp_last }, acts)
  else if strStarts line "Num CPU:" then
    match ls.history.get? 1 with
    | some prev =>
      Except.ok ({ ls with timestamp_last := some (pyReplace1 (pyTrim prev) ' ' "." ++ ".") }, [])
    | none => Except.error "IndexError: list index out of range"
  else
    Except.ok (ls, [])

/-- The `for line in lines` loop of `Monitor.parse_lines`: process lines in
order; an uncaught exception aborts the whole loop (there is no handler
around the loop body in the source). -/
def run_lines (cfg : Config) (ls : LoopState) : List String →
    Except String (LoopState × List Act)
  | [] => Except.ok (ls, [])
  | l :: rest => do
    let (ls1, acts) ← step cfg ls l
    let (ls2, acts2) ← run_lines cfg ls1 rest
    Except.ok (ls2, acts ++ acts2)

/-- JSON values as written by `json.dump` and read by `json.load` (only the
shapes the state uses: objects keep key order, numbers are ints here). -/
inductive J where
  | null
  | num (n : Int)
  | str (s : String)
  | obj (fields : List (String × J))

/-- Encode an optional int (`None` -> `null`). -/
def encOptInt : Option Int → J
  | none => J.null
  | some n => J.num n

/-- Encode an optional string (`None` -> `null`). -/
def encOptStr : Option String → J
  | none => J.null
  | some s => J.str s

/-- `json.dump` of a dict key: string keys pass through; a `None` key is
written as the string `"null"` (CPython converts non-string scalar keys). -/
def encCarKey : Option String → String
  | some s => s
  | none => "null"

/-- Encode one `DriverSession` value. -/
def encSession (d : DriverSession) : J :=
  J.obj [("id", encOptInt d.id), ("car", encOptStr d.car)]

/-- Encode one `LapRecord` value. -/
def encRecord (r : LapRecord) : J :=
  J.obj [("time", J.str r.time), ("time_ms", J.num r.time_ms), ("cuts", J.num r.cuts)]

/-- Encode one driver's car -> record sub-table. -/
def encInner (cls : List (Option String × LapRecord)) : List (String × J) :=
  cls.map (fun p => (encCarKey p.1, encRecord p.2))

/-- Encode a lap table. -/
def encTable (tbl : LapTable) : List (String × J) :=
  tbl.map (fun p => (p.1, J.obj (encInner p.2)))

/-- `json.dump(self.state, ...)`: the persisted snapshot, with fields in the
insertion order of `reset_state`. -/
def encodeState (st : State) : J :=
  J.obj
    [ ("online", J.obj (st.online.map (fun p => (p.1, encSession p.2))))
    , ("track_name", encOptStr st.track_name)
    , ("track_directory", encOptStr st.track_directory)
    , ("track_message_id", encOptInt st.track_message_id)
    , ("archive_path", encOptStr st.archive_path)
    , ("laps", J.obj (encTable st.laps))
    , ("naughties", J.obj (encTable st.naughties))
    , ("carset", encOptStr st.carset) ]

/-- Decode an optional int. -/
def decOptInt : J → Option (Option Int)
  | J.null => some none
  | J.num n => some (some n)
  | _ => none

/-- Decode an optional string. -/
def decOptStr : J → Option (Option String)
  | J.null => some none
  | J.str s => some (some s)
  | _ => none

/-- Decode one `DriverSession`. -/
def decSession : J → Option DriverSession
  | J.obj [("id", ji), ("car", jc)] => do
    let i ← decOptInt ji
    let c ← decOptStr jc
    some ⟨i, c⟩
  | _ => none

/-- Decode one `LapRecord`. -/
def decRecord : J → Option LapRecord
  | J.obj [("time", J.str t), ("time_ms", J.num m), ("cuts", J.num cu)] =>
    some ⟨t, m, cu⟩
  | _ => none

/-- Decode the online roster. -/
def decOnline : List (String × J) → Option (List (String × DriverSession))
  | [] => some []
  | (k, v) :: rest => do
    let d ← decSession v
    let tl ← decOnline rest
    some ((k, d) :: tl)

/-- Decode one driver's sub-table.  The reloaded Python dict has plain string
keys, so every key decodes to `some key`: a `None` key does not come back. -/
def decInner : List (String × J) → Option (List (Option String × LapRecord))
  | [] => some []
  | (k, v) :: rest => do
    let r ← decRecord v
    let tl ← decInner rest
    some ((some k, r) :: tl)

/-- Decode a lap table. -/
def decTable : List (String × J) → Option LapTable
  | [] => some []
  | (k, v) :: rest =>
    match v with
    | J.obj fields => do
      let cls ← decInner fields
      let tl ← decTable rest
      some ((k, cls) :: tl)
    | _ => none

/-- The stored record for key `(n, c)` of a lap table. -/
def innerGet (tbl : LapTable) (n : String) (c : Option String) : Option LapRecord :=
  alGet? ((alGet? tbl n).getD []) c

/-- A sequence of lap events `(time string, time in ms, cuts)` for one fixed
`(driver, car)` key, applied in arrival order through the lap-completed
branch's table update. -/
def lap_fold (tbl : LapTable) (n : String) (c : Option String)
    (seq : List (String × Int × Int)) : LapTable :=
  seq.foldl (fun tb e => (lap_apply tb n c e.1 e.2.1 e.2.2).1) tbl

/-- Position of the first occurrence of an action in a trace. -/
def actIdx? (tr : List Act) (a : Act) : Option Nat :=
  tr.findIdx? (fun x => x = a)

/-- `json.load` of a persisted snapshot back into the state shape. -/
def decodeState : J → Option State
  | J.obj [ ("online", J.obj jon), ("track_name", jtn), ("track_directory", jtd)
          , ("track_message_id", jmi), ("archive_path", jap)
          , ("laps", J.obj jl), ("naughties", J.obj jn), ("carset", jcs) ] => do
    let onl ← decOnline jon
    let tn ← decOptStr jtn
    let td ← decOptStr jtd
    let mi ← decOptInt jmi
    let ap ← decOptStr jap
    let l ← decTable jl
    let na ← decTable jn
    let cs ← decOptStr jcs
    some ⟨onl, tn, td, mi, ap, l, na, cs⟩
  | _ => none

/-- A test configuration: webhooks enabled, live mode (messages logged, laps
updated, state saved), no race.json. -/
def mCfg : Config :=
  { server_name := "S", log_drivers := true, update_laps := true,
    do_not_save_state := false, webhook_log := true, webhook_laps := true,
    race_json := none, url_more_laps := none, sendLogId := some 7,
    sendLapsId := some 9, editOk := true }

/-- The loop state at the top of a `parse_lines` call over a fresh state. -/
def mLs0 : LoopState := ⟨reset_state, none, [], none, none⟩

/-- A state with one online driver holding a stored join-message id. -/
def mStJack : State := { reset_state with online := [("Jack", ⟨some 42, some "shelby"⟩)] }

/-- The spec's leaderboard scenario state: Alice at 83456 ms, Bob at
80000 ms, track Monza. -/
def mStAB : State :=
  { online := [], track_name := some "Monza", track_directory := none,
    track_message_id := none, archive_path := none,
    laps := [("Alice", [(some "acar", ⟨"01:23:456", 83456, 0⟩)]),
             ("Bob", [(some "bcar", ⟨"01:20:000", 80000, 0⟩)])],
    naughties := [], carset := none }

/-- A state whose lap table holds a record under a `None` car key (a driver
who joined with no requested car on record and then completed a lap). -/
def mStNullCar : State :=
  { reset_state with laps := [("Alice", [(none, ⟨"1:00:000", 60000, 0⟩)])] }

/-- A race.json fixture. -/
def mRj : RaceJson := ⟨"Spa", "spa", some "GT3", [("Shelby", "ac_shelby")]⟩

/-- A loop state whose stored track directory is `monza`. -/
def mLsMonza : LoopState :=
  ⟨{ reset_state with track_directory := some "monza" }, none, [], none, none⟩

/-- A loop state over an empty session whose window holds a `LAP` line for a
driver who is not online. -/
def mLsGhost : LoopState := ⟨reset_state, none, ["LAP Ghost 01:00:000"], none, none⟩

/-- A loop state with `Jack` online. -/
def mLsJack : LoopState := ⟨mStJack, none, [], none, none⟩

/-- The replay-mode flags of the initial `parse_lines` call:
`log_drivers=False, update_laps=False, do_not_save_state=True`. -/
def mCfgReplay : Config :=
  { mCfg with log_drivers := false, update_laps := false, do_not_save_state := true }

/-- A state with `Alice` online driving `acar`. -/
def mStOnlineAlice : State :=
  { reset_state with online := [("Alice", ⟨some 7, some "acar"⟩)] }

/-- The state after Alice's 01:23:456 lap is recorded in replay mode. -/
def mStW : State :=
  { mStOnlineAlice with laps := [("Alice", [(some "acar", ⟨"01:23:456", 83456, 0⟩)])] }

/-- A loaded snapshot from an earlier session: Jack online, a stored
leaderboard message id, one valid lap and one cut lap. -/
def mStOld : State :=
  { online := [("Jack", ⟨some 42, none⟩)], track_name := some "Monza",
    track_directory := some "monza", track_message_id := some 5,
    archive_path := none,
    laps := [("Alice", [(some "acar", ⟨"01:23:456", 83456, 0⟩)])],
    naughties := [("X", [(some "c", ⟨"1:2:3", 62003, 4⟩)])], carset := none }

/-- The test configuration with a race.json document. -/
def mCfgRj : Config := { mCfg with race_json := some mRj }

/-! ### Helper lemmas: string prefixes -/

/-- If `p` and `q` are both prefixes of `l` and `p` is no longer than `q`,
then `p` is a prefix of `q`. -/
theorem isPrefixOf_of_both (p : List Char) :
    ∀ (q l : List Char), p.isPrefixOf l = true → q.isPrefixOf l = true →
      p.length ≤ q.length → p.isPrefixOf q = true := by
  induction p with
  | nil => intro q l _ _ _; cases q <;> rfl
  | cons a as ih =>
    intro q l hp hq hlen
    cases l with
    | nil => simp [List.isPrefixOf] at hp
    | cons b bs =>
      cases q with
      | nil => simp at hlen
      | cons c cs =>
        simp only [List.isPrefixOf, Bool.and_eq_true, beq_iff_eq] at hp hq ⊢
        obtain ⟨hab, hp2⟩ := hp
        obtain ⟨hcb, hq2⟩ := hq
        exact ⟨hab.trans hcb.symm, ih cs bs hp2 hq2 (Nat.succ_le_succ_iff.mp hlen)⟩

/-- Two markers neither of which is a prefix of the other cannot both match
the head of the same line. -/
theorem strStarts_other (s p q : String)
    (h1 : p.data.isPrefixOf q.data = false) (h2 : q.data.isPrefixOf p.data = false)
    (h : strStarts s p = true) : strStarts s q = false := by
  by_contra hq
  rw [Bool.not_eq_false] at hq
  rcases Nat.le_total p.data.length q.data.length with hle | hle
  · rw [isPrefixOf_of_both p.data q.data s.data h hq hle] at h1
    simp at h1
  · rw [isPrefixOf_of_both q.data p.data s.data hq h hle] at h2
    simp at h2

/-! ### Helper lemmas: association lists -/

/-- Reading back the key just written. -/
theorem alGet_alSet_self {α β : Type} [DecidableEq α] (l : List (α × β)) (k : α) (v : β) :
    alGet? (alSet l k v) k = some v := by
  induction l with
  | nil => simp [alSet, alGet?]
  | cons p rest ih =>
    by_cases h : p.1 = k
    · simp [alSet, h, alGet?]
    · simp [alSet, h, alGet?, ih]

/-- Writing one key does not change another. -/
theorem alGet_alSet_ne {α β : Type} [DecidableEq α] (l : List (α × β)) (k j : α) (v : β)
    (h : j ≠ k) : alGet? (alSet l k v) j = alGet? l j := by
  induction l with
  | nil => simp [alSet, alGet?, Ne.symm h]
  | cons p rest ih =>
    by_cases hp : p.1 = k
    · have hj : p.1 ≠ j := fun hc => h (hc.symm.trans hp)
      simp [alSet, hp, alGet?, Ne.symm h, hj]
    · by_cases hj : p.1 = j
      · simp [alSet, hp, alGet?, hj, h]
      · simp [alSet, hp, alGet?, hj, ih]

/-- After ensuring a driver's sub-table, reading the driver yields the old
sub-table (empty when the driver was absent). -/
theorem lap_table_ensure_get (tbl : LapTable) (n : String) :
    alGet? (lap_table_ensure tbl n) n = some ((alGet? tbl n).getD []) := by
  unfold lap_table_ensure
  cases h : alGet? tbl n with
  | none => simp [h, alGet_alSet_self]
  | some i => simp [h]

/-! ### Helper lemmas: the lap upsert -/

/-- The record stored for `(n, c)` after one lap event: the new record when
none was stored or the new time is strictly smaller, else the old record. -/
theorem lap_apply_innerGet (tbl : LapTable) (n : String) (c : Option String)
    (t : String) (tms cuts : Int) :
    innerGet (lap_apply tbl n c t tms cuts).1 n c =
      some (match innerGet tbl n c with
            | none => ⟨t, tms, cuts⟩
            | some r => if tms < r.time_ms then ⟨t, tms, cuts⟩ else r) := by
  cases h : alGet? tbl n with
  | none =>
    simp [lap_apply, lap_check_and_set, innerGet, lap_table_ensure, h,
      alGet_alSet_self, alGet?, alSet]
  | some inner0 =>
    cases hc : alGet? inner0 c with
    | none =>
      simp [lap_apply, lap_check_and_set, innerGet, lap_table_ensure, h, hc,
        alGet_alSet_self]
    | some r =>
      by_cases hlt : tms < r.time_ms
      · simp [lap_apply, lap_check_and_set, innerGet, lap_table_ensure, h, hc,
          hlt, alGet_alSet_self]
      · simp [lap_apply, lap_check_and_set, innerGet, lap_table_ensure, h, hc, hlt]

/-- The upsert fires exactly when no record is stored for the key or the new
time in ms is strictly smaller than the stored one. -/
theorem lap_apply_fired (tbl : LapTable) (n : String) (c : Option String)
    (t : String) (tms cuts : Int) :
    (lap_apply tbl n c t tms cuts).2 = true ↔
      innerGet tbl n c = none ∨ ∃ r, innerGet tbl n c = some r ∧ tms < r.time_ms := by
  cases h : alGet? tbl n with
  | none =>
    simp [lap_apply, lap_check_and_set, innerGet, lap_table_ensure, h, alGet?,
      alGet_alSet_self]
  | some inner0 =>
    cases hc : alGet? inner0 c with
    | none => simp [lap_apply, lap_check_and_set, innerGet, lap_table_ensure, h, hc]
    | some r =>
      by_cases hlt : tms < r.time_ms
      · simp [lap_apply, lap_check_and_set, innerGet, lap_table_ensure, h, hc, hlt]
      · simp [lap_apply, lap_check_and_set, innerGet, lap_table_ensure, h, hc, hlt]

/-! ### Helper lemmas: folded minima -/

/-- A left fold of `min` is bounded by its initial value. -/
theorem foldl_min_le_init (a : Int) (l : List Int) : l.foldl min a ≤ a := by
  induction l generalizing a with
  | nil => simp
  | cons x xs ih =>
    simp only [List.foldl_cons]
    exact le_trans (ih (min a x)) (min_le_left a x)

/-- A left fold of `min` is bounded by every list element. -/
theorem foldl_min_le_mem (a : Int) (l : List Int) : ∀ x ∈ l, l.foldl min a ≤ x := by
  induction l generalizing a with
  | nil => simp
  | cons y ys ih =>
    intro x hx
    simp only [List.foldl_cons]
    rcases List.mem_cons.mp hx with h | h
    · subst h
      exact le_trans (foldl_min_le_init _ _) (min_le_right a x)
    · exact ih (min a y) x h

/-- A left fold of `min` is the initial value or one of the elements. -/
theorem foldl_min_mem (a : Int) (l : List Int) :
    l.foldl min a = a ∨ l.foldl min a ∈ l := by
  induction l generalizing a with
  | nil => left; rfl
  | cons y ys ih =>
    simp only [List.foldl_cons]
    rcases ih (min a y) with h | h
    · rcases le_total a y with hle | hle
      · left; rw [h, min_eq_left hle]
      · right; rw [h, min_eq_right hle]; exact List.mem_cons_self y ys
    · right; exact List.mem_cons_of_mem y h

/-- Through any lap sequence for a fixed key, the stored time in ms is the
`min`-fold of the starting record's time with the sequence's times. -/
theorem lap_fold_some (n : String) (c : Option String) (seq : List (String × Int × Int)) :
    ∀ (tbl : LapTable) (r0 : LapRecord), innerGet tbl n c = some r0 →
      ∃ r, innerGet (lap_fold tbl n c seq) n c = some r ∧
        r.time_ms = (seq.map (fun e => e.2.1)).foldl min r0.time_ms := by
  induction seq with
  | nil => intro tbl r0 h; exact ⟨r0, h, rfl⟩
  | cons e rest ih =>
    intro tbl r0 h
    have hstep := lap_apply_innerGet tbl n c e.1 e.2.1 e.2.2
    rw [h] at hstep
    dsimp only at hstep
    by_cases hlt : e.2.1 < r0.time_ms
    · rw [if_pos hlt] at hstep
      obtain ⟨r, hr, ht⟩ := ih _ _ hstep
      refine ⟨r, ?_, ?_⟩
      · simpa [lap_fold, List.foldl_cons] using hr
      · rw [ht]
        simp only [List.map_cons, List.foldl_cons]
        rw [min_eq_right (le_of_lt hlt)]
    · rw [if_neg hlt] at hstep
      obtain ⟨r, hr, ht⟩ := ih _ _ hstep
      refine ⟨r, ?_, ?_⟩
      · simpa [lap_fold, List.foldl_cons] using hr
      · rw [ht]
        simp only [List.map_cons, List.foldl_cons]
        rw [min_eq_left (le_of_not_lt hlt)]

/-- Claim C1: for every `(driver, car)` key in either lap table, an incoming
lap replaces the stored record exactly when no record exists yet or its time
in ms is strictly smaller than the stored `time_ms`; consequently, after any
sequence of lap events for that key (starting from no stored record), the
stored record holds the minimum time in ms among all recorded laps,
regardless of arrival order. -/
theorem lap_min_retained :
    (∀ (tbl : LapTable) (n : String) (c : Option String) (t : String) (tms cuts : Int),
        (lap_apply tbl n c t tms cuts).2 = true ↔
          innerGet tbl n c = none ∨ ∃ r, innerGet tbl n c = some r ∧ tms < r.time_ms)
    ∧ (∀ (tbl : LapTable) (n : String) (c : Option String)
          (seq : List (String × Int × Int)),
        seq ≠ [] → innerGet tbl n c = none →
        ∃ r, innerGet (lap_fold tbl n c seq) n c = some r ∧
          r.time_ms ∈ seq.map (fun e => e.2.1) ∧
          ∀ v ∈ seq.map (fun e => e.2.1), r.time_ms ≤ v) := by
  constructor
  · exact lap_apply_fired
  · intro tbl n c seq hne h0
    cases seq with
    | nil => exact absurd rfl hne
    | cons e rest =>
      have hstep := lap_apply_innerGet tbl n c e.1 e.2.1 e.2.2
      rw [h0] at hstep
      dsimp only at hstep
      obtain ⟨r, hr, ht⟩ := lap_fold_some n c rest _ _ hstep
      dsimp only at ht
      have hfold : innerGet (lap_fold tbl n c (e :: rest)) n c = some r := by
        simpa [lap_fold, List.foldl_cons] using hr
      refine ⟨r, hfold, ?_, ?_⟩
      · simp only [List.map_cons, List.mem_cons]
        rcases foldl_min_mem e.2.1 (rest.map (fun x => x.2.1)) with hm | hm
        · left; rw [ht]; exact hm
        · right; rw [ht]; exact hm
      · intro v hv
        simp only [List.map_cons, List.mem_cons] at hv
        rcases hv with hv | hv
        · subst hv; rw [ht]; exact foldl_min_le_init _ _
        · rw [ht]; exact foldl_min_le_mem _ _ v hv

/-- Witness for C1 at a concrete three-lap sequence (83456 ms, then 80000 ms,
then 85000 ms): the first lap stores a record, and the fold retains the
80000 ms minimum. -/
theorem lap_min_retained_witness :
    (lap_apply [] "Alice" (some "acar") "1:23:456" 83456 0).2 = true ∧
    (∃ r, innerGet (lap_fold [] "Alice" (some "acar")
        [("1:23:456", 83456, 0), ("1:20:000", 80000, 0), ("1:25:000", 85000, 0)])
        "Alice" (some "acar") = some r ∧
      r.time_ms ∈ [("1:23:456", (83456 : Int), (0 : Int)), ("1:20:000", 80000, 0),
        ("1:25:000", 85000, 0)].map (fun e => e.2.1) ∧
      ∀ v ∈ [("1:23:456", (83456 : Int), (0 : Int)), ("1:20:000", 80000, 0),
        ("1:25:000", 85000, 0)].map (fun e => e.2.1), r.time_ms ≤ v) := by
  constructor
  · exact (lap_min_retained.1 [] "Alice" (some "acar") "1:23:456" 83456 0).mpr (Or.inl rfl)
  · exact lap_min_retained.2 [] "Alice" (some "acar") _ (by decide) rfl

/-- Claim C9: for every well-formed colon-separated time string whose three
fields parse as integers, `to_ms` returns
`minutes * 60000 + seconds * 1000 + millis` in exact integer arithmetic. -/
theorem to_ms_formula (s a b c : String) (m sec ms : Int)
    (hsplit : pySplit s ":" = [a, b, c])
    (ha : pyInt a = Except.ok m) (hb : pyInt b = Except.ok sec)
    (hc : pyInt c = Except.ok ms) :
    to_ms s = Except.ok (m * 60000 + sec * 1000 + ms) := by
  unfold to_ms
  rw [hsplit]
  simp only [ha, hb, hc]
  rfl

/-- Witness for C9 at the spec's example: `"01:23:456"` converts to
83456 ms. -/
theorem to_ms_formula_witness : to_ms "01:23:456" = Except.ok 83456 := by
  have h := to_ms_formula "01:23:456" "01" "23" "456" 1 23 456 rfl rfl rfl rfl
  exact h

/-- Claim C7: a line carrying the `TRACK=` marker whose value equals the
stored track directory produces no event: the step succeeds, performs no
action, and leaves everything except the recent-line window unchanged. -/
theorem track_same_noop (cfg : Config) (ls : LoopState) (line : String)
    (h : strStarts line "TRACK=" = true)
    (h2 : ls.st.track_directory = some (pyTrim (lastPart line "="))) :
    step cfg ls line =
      Except.ok ({ ls with history := (line :: ls.history).take 10 }, []) := by
  have n1 : strStarts line "REQUESTED CAR:" = false :=
    strStarts_other line "TRACK=" "REQUESTED CAR:" (by decide) (by decide) h
  have n2 : strStarts line "DRIVER:" = false :=
    strStarts_other line "TRACK=" "DRIVER:" (by decide) (by decide) h
  have n3 : strStarts line "Clean exit, driver disconnected" = false :=
    strStarts_other line "TRACK=" "Clean exit, driver disconnected" (by decide) (by decide) h
  have n4 : strStarts line "Connection is now closed" = false :=
    strStarts_other line "TRACK=" "Connection is now closed" (by decide) (by decide) h
  have n5 : strStarts line "Result.OnLapCompleted" = false :=
    strStarts_other line "TRACK=" "Result.OnLapCompleted" (by decide) (by decide) h
  have n6 : strStarts line "Num CPU:" = false :=
    strStarts_other line "TRACK=" "Num CPU:" (by decide) (by decide) h
  simp [step, n1, n2, n3, n4, n5, n6, h, h2]

/-- Witness for C7 at the spec's scenario: `"TRACK=monza"` with stored
directory `"monza"` is a pure no-op. -/
theorem track_same_noop_witness :
    step mCfg mLsMonza "TRACK=monza" =
      Except.ok ({ mLsMonza with history := ["TRACK=monza"] }, []) := by
  have h := track_same_noop mCfg mLsMonza "TRACK=monza" rfl rfl
  exact h

/-- Counterexample to claim C2: a `Result.OnLapCompleted` line whose cut
count does not parse raises `ValueError` out of the line loop — the loop
does not skip the line and continue, it terminates, and the following
`DRIVER:` line is never processed. -/
theorem malformed_line_skip_cex :
    (run_lines mCfg mLs0 ["Result.OnLapCompleted. Cuts: x", "DRIVER: Bob []"]).isOk
      = false := rfl

/-- Claim C2 amended: an error while reducing a malformed line (here: an
unparseable cut count on a lap-completed marker) propagates out of
`parse_lines` and terminates the line-processing loop; no further line of
the input is processed. -/
theorem malformed_cuts_terminates (cfg : Config) (ls : LoopState) (line : String)
    (rest : List String)
    (h : strStarts line "Result.OnLapCompleted" = true)
    (hbad : (pyInt (lastPart line "Cuts:")).isOk = false) :
    (run_lines cfg ls (line :: rest)).isOk = false := by
  have n1 : strStarts line "REQUESTED CAR:" = false :=
    strStarts_other line "Result.OnLapCompleted" "REQUESTED CAR:" (by decide) (by decide) h
  have n2 : strStarts line "DRIVER:" = false :=
    strStarts_other line "Result.OnLapCompleted" "DRIVER:" (by decide) (by decide) h
  have n3 : strStarts line "Clean exit, driver disconnected" = false :=
    strStarts_other line "Result.OnLapCompleted" "Clean exit, driver disconnected"
      (by decide) (by decide) h
  have n4 : strStarts line "Connection is now closed" = false :=
    strStarts_other line "Result.OnLapCompleted" "Connection is now closed"
      (by decide) (by decide) h
  cases hpy : pyInt (lastPart line "Cuts:") with
  | ok v => rw [hpy] at hbad; simp [Except.isOk, Except.toBool] at hbad
  | error e =>
    have hstep : step cfg ls line = Except.error e := by
      simp [step, n1, n2, n3, n4, h, hpy]
      rfl
    simp [run_lines, hstep]
    rfl

/-- Witness for the amended C2 at a concrete malformed line followed by a
track change that is consequently never handled. -/
theorem malformed_cuts_terminates_witness :
    strStarts "Result.OnLapCompleted. Cuts: x" "Result.OnLapCompleted" = true ∧
    (pyInt (lastPart "Result.OnLapCompleted. Cuts: x" "Cuts:")).isOk = false ∧
    (run_lines mCfg mLs0 ["Result.OnLapCompleted. Cuts: x", "TRACK=spa"]).isOk
      = false := by
  refine ⟨rfl, rfl, ?_⟩
  exact malformed_cuts_terminates mCfg mLs0 "Result.OnLapCompleted. Cuts: x"
    ["TRACK=spa"] rfl rfl

/-- Counterexample to claim C3: a lap completion for the offline driver
`Ghost` does not leave the state completely unchanged — an empty sub-table
keyed by `Ghost` is inserted into the valid-laps table before the online
check runs (no persist and no notification happen, as witnessed by the empty
action trace). -/
theorem offline_lap_untouched_cex :
    mLsGhost.st.laps = [] ∧
    (step mCfg mLsGhost "Result.OnLapCompleted. Cuts: 0").toOption.map
        (fun r => (r.1.st.laps, r.2))
      = some ([("Ghost", [])], []) := ⟨rfl, rfl⟩

/-- Claim C3 amended: a lap completion for a driver who is not in the online
map is dropped — no lap record is stored, nothing is persisted and no
notification is attempted — but the state is not completely unchanged: when
the driver has no entry in the target table yet, an empty sub-table keyed by
the driver is inserted (the source runs
`if not n in self.state[laps]: self.state[laps][n] = dict()` before the
online check). -/
theorem lap_branch_offline (cfg : Config) (ts : Option String) (st : State)
    (cuts tms : Int) (l n t : String)
    (hnt : lap_name_time l = (n, t))
    (htms : to_ms t = Except.ok tms)
    (hoff : alGet? st.online n = none) :
    lap_branch cfg ts st cuts l = Except.ok
      (setTable st (!(cuts == 0)) (lap_table_ensure (getTable st (!(cuts == 0))) n), []) := by
  have honl : ∀ naughty tbl, alGet? (setTable st naughty tbl).online n = none := by
    intro naughty tbl
    cases naughty <;> simp [setTable, hoff]
  unfold lap_branch
  rw [hnt]
  dsimp only
  rw [htms]
  simp [honl]
  rfl

theorem offline_lap_dropped (cfg : Config) (ls : LoopState) (line l : String)
    (cuts tms : Int) (n t : String)
    (h : strStarts line "Result.OnLapCompleted" = true)
    (hcuts : pyInt (lastPart line "Cuts:") = Except.ok cuts)
    (hfind : find_lap_line ((line :: ls.history).take 10) = some l)
    (hnt : lap_name_time l = (n, t))
    (htms : to_ms t = Except.ok tms)
    (hoff : alGet? ls.st.online n = none) :
    step cfg ls line = Except.ok
      ({ ls with history := (line :: ls.history).take 10,
                 st := setTable ls.st (!(cuts == 0))
                   (lap_table_ensure (getTable ls.st (!(cuts == 0))) n) }, []) := by
  have n1 : strStarts line "REQUESTED CAR:" = false :=
    strStarts_other line "Result.OnLapCompleted" "REQUESTED CAR:" (by decide) (by decide) h
  have n2 : strStarts line "DRIVER:" = false :=
    strStarts_other line "Result.OnLapCompleted" "DRIVER:" (by decide) (by decide) h
  have n3 : strStarts line "Clean exit, driver disconnected" = false :=
    strStarts_other line "Result.OnLapCompleted" "Clean exit, driver disconnected"
      (by decide) (by decide) h
  have n4 : strStarts line "Connection is now closed" = false :=
    strStarts_other line "Result.OnLapCompleted" "Connection is now closed"
      (by decide) (by decide) h
  have hfind2 : find_lap_line (line :: ls.history.take 9) = some l := hfind
  have hlb := lap_branch_offline cfg ls.timestamp ls.st cuts tms l n t hnt htms hoff
  simp [step, n1, n2, n3, n4, h, hcuts, hfind2]
  dsimp only [bind, Except.bind]
  rw [hlb]

/-- Witness for the amended C3: a cut lap (`Cuts: 3`) for the offline driver
`Ghost` inserts only the empty sub-table into the cut-laps table and produces
no action. -/
theorem offline_lap_dropped_witness :
    step mCfg mLsGhost "Result.OnLapCompleted. Cuts: 3" = Except.ok
      ({ mLsGhost with
          history := ["Result.OnLapCompleted. Cuts: 3", "LAP Ghost 01:00:000"],
          st := { reset_state with naughties := [("Ghost", [])] } }, []) := by
  have h := offline_lap_dropped mCfg mLsGhost "Result.OnLapCompleted. Cuts: 3"
    "LAP Ghost 01:00:000" 3 60000 "Ghost" "01:00:000" rfl rfl rfl rfl rfl rfl
  exact h

/-- Claim C4 (a bug in the source): handling a track change with a non-empty
online roster performs no per-driver message deletion at all.  `new_track`
calls `reset_state()` — which clears the roster, contradicting the adjacent
comment `Reset everything but the online users` — before
`delete_online_messages()`, so the cleanup iterates an empty roster: with
`Jack` online holding message id 42, the emitted trace contains no
`netDeleteLog` action (first conjunct).  Had the cleanup run on the
pre-reset roster instead, it would raise `RuntimeError` because it pops
entries from the dict it is iterating (second conjunct). -/
theorem new_track_cleanup_after_reset :
    (new_track mCfg none mStJack "newtrack").toOption.map (fun r => (r.1.online, r.2))
      = some ([], [Act.persist, Act.persist,
          Act.netSendLaps "@everyone\n**This week: newtrack!**\n\n", Act.persist]) ∧
    (delete_online_messages mCfg mStJack).isOk = false := ⟨rfl, rfl⟩

/-- Saving the snapshot only recomputes `archive_path`: the roster is
untouched. -/
theorem save_online (skip : Bool) (ts : Option String) (st : State) :
    (save_and_archive_state skip ts st).1.online = st.online := by
  unfold save_and_archive_state; split_ifs <;> simp

/-- Saving the snapshot leaves the valid-laps table untouched. -/
theorem save_laps (skip : Bool) (ts : Option String) (st : State) :
    (save_and_archive_state skip ts st).1.laps = st.laps := by
  unfold save_and_archive_state; split_ifs <;> simp

/-- Saving the snapshot leaves the cut-laps table untouched. -/
theorem save_naughties (skip : Bool) (ts : Option String) (st : State) :
    (save_and_archive_state skip ts st).1.naughties = st.naughties := by
  unfold save_and_archive_state; split_ifs <;> simp

/-- Saving the snapshot leaves the track name untouched. -/
theorem save_track_name (skip : Bool) (ts : Option String) (st : State) :
    (save_and_archive_state skip ts st).1.track_name = st.track_name := by
  unfold save_and_archive_state; split_ifs <;> simp

/-- Saving the snapshot leaves the track directory untouched. -/
theorem save_track_directory (skip : Bool) (ts : Option String) (st : State) :
    (save_and_archive_state skip ts st).1.track_directory = st.track_directory := by
  unfold save_and_archive_state; split_ifs <;> simp

/-- Saving the snapshot leaves the leaderboard message id untouched. -/
theorem save_track_message_id (skip : Bool) (ts : Option String) (st : State) :
    (save_and_archive_state skip ts st).1.track_message_id = st.track_message_id := by
  unfold save_and_archive_state; split_ifs <;> simp

/-- Saving the snapshot leaves the carset untouched. -/
theorem save_carset (skip : Bool) (ts : Option String) (st : State) :
    (save_and_archive_state skip ts st).1.carset = st.carset := by
  unfold save_and_archive_state; split_ifs <;> simp

/-- Counterexample to claim C5: handling `DRIVER: Bob []` issues the join
webhook send (trace position 0) before the online-roster mutation (trace
position 1), so for the join event the state mutation does not precede the
network call that reports it. -/
theorem join_send_before_mutation_cex :
    (step mCfg mLs0 "DRIVER: Bob []").toOption.map (fun r => r.2)
      = some [Act.netSendLog "Bob is on S!", Act.wOnline "Bob", Act.persist] ∧
    actIdx? [Act.netSendLog "Bob is on S!", Act.wOnline "Bob", Act.persist]
      (Act.netSendLog "Bob is on S!") = some 0 ∧
    actIdx? [Act.netSendLog "Bob is on S!", Act.wOnline "Bob", Act.persist]
      (Act.wOnline "Bob") = some 1 := ⟨rfl, rfl, rfl⟩

/-- Claim C5 amended: for a lap-table update, the state mutation comes first
in the handler's trace, before any persistence or network action; for
`DriverJoined` and `DriverLeft` the webhook call precedes the mutation (the
join stores the id returned by the send, the leave deletes the stored id
before discarding it), but the webhook outcome is swallowed, so the mutation
is applied regardless of the network result. -/
theorem mutation_network_order :
    (∀ (cfg : Config) (ls : LoopState) (name : String),
        cfg.log_drivers = true → cfg.webhook_log = true →
        ∃ m rest, (driver_connects cfg ls name).2
            = Act.netSendLog m :: Act.wOnline name :: rest ∧
          alGet? (driver_connects cfg ls name).1.st.online name
            = some ⟨cfg.sendLogId, ls.last_requested_car⟩)
    ∧ (∀ (cfg : Config) (ls : LoopState) (name : String) (d : DriverSession),
        alGet? ls.st.online name = some d → cfg.webhook_log = true →
        pyTruthyI d.id = true →
        (∃ rest, (driver_disconnects cfg ls name).2
            = Act.netDeleteLog (d.id.getD 0) :: Act.wRemoveOnline name :: rest) ∧
          (driver_disconnects cfg ls name).1.st.online = alErase ls.st.online name)
    ∧ (∀ (cfg : Config) (ts : Option String) (st : State) (cuts : Int) (l : String)
          (st2 : State) (acts : List Act),
        lap_branch cfg ts st cuts l = Except.ok (st2, acts) → acts ≠ [] →
        ∃ rest, acts = Act.wLap (lap_name_time l).1 :: rest) := by
  refine ⟨?_, ?_, ?_⟩
  · intro cfg ls name h1 h2
    unfold driver_connects
    rw [h1, h2]
    refine ⟨_, _, rfl, ?_⟩
    simp [save_online, alGet_alSet_self]
  · intro cfg ls name d hd h1 h2
    have hdd : driver_disconnects cfg ls name =
        ({ ls with st := (save_and_archive_state cfg.do_not_save_state ls.timestamp
              { ls.st with online := alErase ls.st.online name }).1 },
          Act.netDeleteLog (d.id.getD 0) :: Act.wRemoveOnline name ::
            (save_and_archive_state cfg.do_not_save_state ls.timestamp
              { ls.st with online := alErase ls.st.online name }).2) := by
      unfold driver_disconnects
      rw [hd]
      dsimp only
      rw [h1, h2]
      rfl
    rw [hdd]
    constructor
    · exact ⟨_, rfl⟩
    · simp [save_online]
  · intro cfg ts st cuts l st2 acts hok hne
    unfold lap_branch at hok
    dsimp only at hok
    cases htm : to_ms (lap_name_time l).2 with
    | error e => rw [htm] at hok; simp [bind, Except.bind] at hok
    | ok tms =>
      rw [htm] at hok
      dsimp only [bind, Except.bind] at hok
      split at hok
      · cases hok
        exact absurd rfl hne
      · split at hok
        · split at hok
          · split at hok
            · exact Except.noConfusion hok
            · cases hok
              exact ⟨_, rfl⟩
          · cases hok
            exact ⟨_, rfl⟩
        · cases hok
          exact absurd rfl hne

/-- Witness for the amended C5: Bob's join (send, then roster write, id 7
stored), Jack's leave (delete of id 42, then roster removal), and Alice's
replay-mode lap (the table write is the first and only action). -/
theorem mutation_network_order_witness :
    (∃ m rest, (driver_connects mCfg mLs0 "Bob").2
        = Act.netSendLog m :: Act.wOnline "Bob" :: rest ∧
      alGet? (driver_connects mCfg mLs0 "Bob").1.st.online "Bob"
        = some ⟨mCfg.sendLogId, mLs0.last_requested_car⟩) ∧
    ((∃ rest, (driver_disconnects mCfg mLsJack "Jack").2
        = Act.netDeleteLog 42 :: Act.wRemoveOnline "Jack" :: rest) ∧
      (driver_disconnects mCfg mLsJack "Jack").1.st.online
        = alErase mLsJack.st.online "Jack") ∧
    (∃ rest, [Act.wLap "Alice"]
        = Act.wLap (lap_name_time "LAP Alice 01:23:456").1 :: rest) := by
  refine ⟨?_, ?_, ?_⟩
  · exact mutation_network_order.1 mCfg mLs0 "Bob" rfl rfl
  · exact mutation_network_order.2.1 mCfg mLsJack "Jack" ⟨some 42, some "shelby"⟩ rfl rfl rfl
  · exact mutation_network_order.2.2 mCfgReplay none mStOnlineAlice 0
      "LAP Alice 01:23:456" mStW [Act.wLap "Alice"] rfl (by decide)

/-- Claim C10: when a race.json is configured and its track name or carset
differs from the loaded state, reconciliation clears the valid-laps table,
overwrites the track name, track directory and carset from the document and
resets the leaderboard message id, while the cut-laps table and the online
roster are preserved unchanged.  (A Python message id is a non-zero integer;
the hypothesis excludes the unreachable stored id `0`, which the source's
truthiness test would leave in place.) -/
theorem race_json_reconcile (cfg : Config) (rj : RaceJson) (ts : Option String)
    (st : State)
    (hrj : cfg.race_json = some rj)
    (hdiff : some rj.track_name ≠ st.track_name ∨ rj.carset ≠ st.carset)
    (hmi : st.track_message_id ≠ some 0) :
    (update_state_with_race_json cfg ts st).1.laps = [] ∧
    (update_state_with_race_json cfg ts st).1.track_name = some rj.track_name ∧
    (update_state_with_race_json cfg ts st).1.track_directory = some rj.track_directory ∧
    (update_state_with_race_json cfg ts st).1.carset = rj.carset ∧
    (update_state_with_race_json cfg ts st).1.track_message_id = none ∧
    (update_state_with_race_json cfg ts st).1.naughties = st.naughties ∧
    (update_state_with_race_json cfg ts st).1.online = st.online := by
  have hid : (if pyTruthyI st.track_message_id then
      { st with track_message_id := none } else st).track_message_id = none := by
    cases hm : st.track_message_id with
    | none => simp [pyTruthyI, hm]
    | some i =>
      by_cases hz : i = 0
      · exact absurd (hz ▸ hm) hmi
      · simp [pyTruthyI, hz]
  unfold update_state_with_race_json
  rw [hrj]
  dsimp only
  rw [if_pos hdiff]
  refine ⟨?_, ?_, ?_, ?_, ?_, ?_, ?_⟩
  · rw [save_laps]
  · rw [save_track_name]
  · rw [save_track_directory]
  · rw [save_carset]
  · rw [save_track_message_id]
    exact hid
  · rw [save_naughties]
    split_ifs <;> rfl
  · rw [save_online]
    split_ifs <;> rfl

/-- Witness for C10: reconciling the loaded snapshot (track Monza, no
carset) against a race.json for Spa with carset GT3 clears the laps, sets
the track fields, drops message id 5, and keeps the cut-lap table and
Jack's roster entry. -/
theorem race_json_reconcile_witness :
    (update_state_with_race_json mCfgRj none mStOld).1.laps = [] ∧
    (update_state_with_race_json mCfgRj none mStOld).1.track_name = some mRj.track_name ∧
    (update_state_with_race_json mCfgRj none mStOld).1.track_directory
      = some mRj.track_directory ∧
    (update_state_with_race_json mCfgRj none mStOld).1.carset = mRj.carset ∧
    (update_state_with_race_json mCfgRj none mStOld).1.track_message_id = none ∧
    (update_state_with_race_json mCfgRj none mStOld).1.naughties = mStOld.naughties ∧
    (update_state_with_race_json mCfgRj none mStOld).1.online = mStOld.online := by
  exact race_json_reconcile mCfgRj mRj none mStOld rfl (Or.inl (by decide)) (by decide)

/-! ### Helper lemmas: JSON round trip -/

/-- Optional ints survive the round trip. -/
theorem roundtrip_optInt (x : Option Int) : decOptInt (encOptInt x) = some x := by
  cases x <;> rfl

/-- Optional strings survive the round trip. -/
theorem roundtrip_optStr (x : Option String) : decOptStr (encOptStr x) = some x := by
  cases x <;> rfl

/-- Driver sessions survive the round trip. -/
theorem roundtrip_session (d : DriverSession) : decSession (encSession d) = some d := by
  cases d with
  | mk i c => cases i <;> cases c <;> rfl

/-- Lap records survive the round trip. -/
theorem roundtrip_record (r : LapRecord) : decRecord (encRecord r) = some r := rfl

/-- The online roster survives the round trip. -/
theorem roundtrip_online (onl : List (String × DriverSession)) :
    decOnline (onl.map (fun p => (p.1, encSession p.2))) = some onl := by
  induction onl with
  | nil => rfl
  | cons p rest ih =>
    simp [decOnline, roundtrip_session, ih]

/-- A per-driver sub-table whose car keys are all non-null survives the
round trip. -/
theorem roundtrip_inner (cls : List (Option String × LapRecord))
    (h : ∀ q ∈ cls, q.1 ≠ (none : Option String)) :
    decInner (encInner cls) = some cls := by
  induction cls with
  | nil => rfl
  | cons q rest ih =>
    cases hq : q.1 with
    | none => exact absurd hq (h q (List.mem_cons_self q rest))
    | some s =>
      have ih2 := ih (fun x hx => h x (List.mem_cons_of_mem q hx))
      have hq1 : q = (some s, q.2) := by
        cases q
        simp at hq
        rw [hq]
      rw [hq1]
      simp [encInner, decInner, roundtrip_record] at ih2 ⊢
      rw [ih2]
      rfl

/-- A lap table whose car keys are all non-null survives the round trip. -/
theorem roundtrip_table (tbl : LapTable)
    (h : ∀ p ∈ tbl, ∀ q ∈ p.2, q.1 ≠ (none : Option String)) :
    decTable (encTable tbl) = some tbl := by
  induction tbl with
  | nil => rfl
  | cons p rest ih =>
    have hin := roundtrip_inner p.2 (h p (List.mem_cons_self p rest))
    have ih2 := ih (fun x hx => h x (List.mem_cons_of_mem p hx))
    simp [encTable, decTable, hin] at ih2 ⊢
    rw [ih2]
    rfl

/-- Counterexample to claim C8: a state holding a lap record under a `None`
car key does not survive the persistence round trip — `json.dump` writes the
`None` dict key as the string `"null"`, so the reloaded state differs. -/
theorem state_roundtrip_cex :
    decodeState (encodeState mStNullCar)
      = some { reset_state with
          laps := [("Alice", [(some "null", ⟨"1:00:000", 60000, 0⟩)])] } ∧
    decodeState (encodeState mStNullCar) ≠ some mStNullCar := ⟨rfl, by decide⟩

/-- Claim C8 amended: for every state whose lap tables hold no `None` car
key, serializing to the JSON snapshot and reloading yields the identical
state — same online roster, same records in both lap tables, same track
fields.  (A `None` car key — a lap by a driver who joined with no requested
car — is stringified to `"null"` by the JSON writer and does not decode back
to `None`.) -/
theorem state_roundtrip (st : State)
    (hl : ∀ p ∈ st.laps, ∀ q ∈ p.2, q.1 ≠ (none : Option String))
    (hn : ∀ p ∈ st.naughties, ∀ q ∈ p.2, q.1 ≠ (none : Option String)) :
    decodeState (encodeState st) = some st := by
  obtain ⟨onl, tn, td, mi, ap, l, na, cs⟩ := st
  simp only at hl hn
  simp [encodeState, decodeState, roundtrip_online, roundtrip_optStr,
    roundtrip_optInt, roundtrip_table l hl, roundtrip_table na hn]

/-- Witness for the amended C8 at a populated snapshot: the loaded-session
fixture round-trips exactly. -/
theorem state_roundtrip_witness :
    decodeState (encodeState mStOld) = some mStOld := by
  exact state_roundtrip mStOld (by decide) (by decide)

/-! ### Helper lemmas: the leaderboard -/

/-- When every record's time string parses back to its stored `time_ms`
(as every reducer-built record does), key precomputation succeeds and pairs
each element with its `time_ms`. -/
theorem keyCarlaps_ok : ∀ (cls : List (Option String × LapRecord)),
    (∀ q ∈ cls, to_ms q.2.time = Except.ok q.2.time_ms) →
    keyCarlaps cls = Except.ok (cls.map (fun q => (q, q.2.time_ms))) := by
  intro cls
  induction cls with
  | nil => intro _; rfl
  | cons q rest ih =>
    intro h
    have hq := h q (List.mem_cons_self q rest)
    have ih2 := ih (fun x hx => h x (List.mem_cons_of_mem q hx))
    simp only [keyCarlaps, hq, ih2]
    rfl

/-- Key precomputation for the final sort, same condition. -/
theorem keyEntries_ok : ∀ (es : List Entry),
    (∀ e ∈ es, to_ms e.1.time = Except.ok e.1.time_ms) →
    keyEntries es = Except.ok (es.map (fun e => (e, e.1.time_ms))) := by
  intro es
  induction es with
  | nil => intro _; rfl
  | cons e rest ih =>
    intro h
    have he := h e (List.mem_cons_self e rest)
    have ih2 := ih (fun x hx => h x (List.mem_cons_of_mem e hx))
    simp only [keyEntries, he, ih2]
    rfl

/-- The head of a key-sorted list is an element of minimal key. -/
theorem pySorted_head_min {α : Type} (k : α → Int) (l : List α) (h : α) (t : List α)
    (heq : pySorted k l = h :: t) :
    h ∈ l ∧ ∀ y ∈ l, k h ≤ k y := by
  have hperm : List.Perm (pySorted k l) l := List.perm_insertionSort (keyLE k) l
  have hsorted : List.Sorted (keyLE k) (pySorted k l) :=
    List.sorted_insertionSort (keyLE k) l
  rw [heq] at hperm hsorted
  constructor
  · exact hperm.mem_iff.mp (List.mem_cons_self h t)
  · intro y hy
    have hy2 : y ∈ h :: t := hperm.symm.mem_iff.mp hy
    rcases List.mem_cons.mp hy2 with hy3 | hy3
    · rw [hy3]
    · exact List.rel_of_sorted_cons hsorted y hy3

/-- The per-driver pass emits, in table order, exactly one entry per driver
with a non-empty sub-table, and each entry is that driver's minimal pair by
`time_ms`. -/
theorem bestsOf_ok : ∀ (tbl : LapTable),
    (∀ p ∈ tbl, ∀ q ∈ p.2, to_ms q.2.time = Except.ok q.2.time_ms) →
    ∃ bests, bestsOf tbl = Except.ok bests ∧
      bests.map (fun e => e.2.1) = (tbl.filter (fun p => !p.2.isEmpty)).map Prod.fst ∧
      ∀ e ∈ bests, ∃ cls, (e.2.1, cls) ∈ tbl ∧ (e.2.2, e.1) ∈ cls ∧
        ∀ q ∈ cls, e.1.time_ms ≤ q.2.time_ms := by
  intro tbl
  induction tbl with
  | nil => intro _; exact ⟨[], rfl, rfl, by simp⟩
  | cons p rest ih =>
    intro h
    obtain ⟨tl, htl, hmap, hmem⟩ := ih (fun x hx => h x (List.mem_cons_of_mem p hx))
    obtain ⟨name, cls⟩ := p
    cases cls with
    | nil =>
      refine ⟨tl, ?_, ?_, ?_⟩
      · simp only [bestsOf, htl]
      · simpa [List.filter] using hmap
      · intro e he
        obtain ⟨cls2, hc1, hc2, hc3⟩ := hmem e he
        exact ⟨cls2, List.mem_cons_of_mem _ hc1, hc2, hc3⟩
    | cons x xs =>
      have hkc := keyCarlaps_ok (x :: xs) (h (name, x :: xs) (List.mem_cons_self _ _))
      cases hs : pySorted (fun q => q.2) ((x :: xs).map (fun q => (q, q.2.time_ms))) with
      | nil =>
        have hlen2 : (pySorted (fun q : (Option String × LapRecord) × Int => q.2)
            ((x :: xs).map (fun q => (q, q.2.time_ms)))).length
            = ((x :: xs).map (fun q => (q, q.2.time_ms))).length :=
          (List.perm_insertionSort _ _).length_eq
        rw [hs] at hlen2
        simp at hlen2
      | cons hd tl2 =>
        obtain ⟨hmem0, hmin0⟩ := pySorted_head_min (fun q => q.2)
          ((x :: xs).map (fun q => (q, q.2.time_ms))) hd tl2 hs
        obtain ⟨q0, hq0, hdq⟩ := List.mem_map.mp hmem0
        refine ⟨(hd.1.2, name, hd.1.1) :: tl, ?_, ?_, ?_⟩
        · simp only [bestsOf, hkc, htl]
          dsimp only [bind, Except.bind]
          rw [hs]
        · simp [hmap, List.filter]
        · intro e he
          rcases List.mem_cons.mp he with he1 | he2
          · subst he1
            refine ⟨x :: xs, List.mem_cons_self _ _, ?_, ?_⟩
            · have hd1 : hd.1 = q0 := by rw [← hdq]
              show (hd.1.1, hd.1.2) ∈ x :: xs
              rw [show ((hd.1.1, hd.1.2) : Option String × LapRecord) = hd.1 from rfl, hd1]
              exact hq0
            · intro q hq
              have hky : (q, q.2.time_ms) ∈ (x :: xs).map (fun q => (q, q.2.time_ms)) :=
                List.mem_map_of_mem _ hq
              have := hmin0 (q, q.2.time_ms) hky
              have hk2 : hd.2 = hd.1.2.time_ms := by rw [← hdq]
              simpa [hk2] using this
          · obtain ⟨cls2, hc1, hc2, hc3⟩ := hmem e he2
            exact ⟨cls2, List.mem_cons_of_mem _ hc1, hc2, hc3⟩

/-- Claim C6: for every state whose records carry their parsed time (as all
reducer-built records do), the rendered leaderboard lists exactly one entry
per driver with at least one valid lap — that driver's fastest (car, record)
pair by time in ms — in ascending order of time in ms; rank numbers start at
1, so with Alice at 83456 ms and Bob at 80000 ms the rendered message shows
Bob as rank 1 and Alice as rank 2 (final conjunct, the spec's scenario). -/
theorem leaderboard_sorted_bests :
    (∀ (st : State),
        (∀ p ∈ st.laps, ∀ q ∈ p.2, to_ms q.2.time = Except.ok q.2.time_ms) →
        ∃ es, send_laps_entries st = Except.ok es ∧
          List.Perm (es.map (fun e => e.2.1))
            ((st.laps.filter (fun p => !p.2.isEmpty)).map Prod.fst) ∧
          (∀ e ∈ es, ∃ cls, (e.2.1, cls) ∈ st.laps ∧ (e.2.2, e.1) ∈ cls ∧
            ∀ q ∈ cls, e.1.time_ms ≤ q.2.time_ms) ∧
          es.Sorted (fun a b => a.1.time_ms ≤ b.1.time_ms)) ∧
    send_laps_message mCfg mStAB = Except.ok
      "@everyone\n**This week: Monza!**\n\n**1.** 01:20:000 Bob (bcar)\n**2.** 01:23:456 Alice (acar)\n" := by
  constructor
  · intro st hk
    obtain ⟨bests, hb, hbmap, hbmem⟩ := bestsOf_ok st.laps hk
    have hbk : ∀ e ∈ bests, to_ms e.1.time = Except.ok e.1.time_ms := by
      intro e he
      obtain ⟨cls, hc1, hc2, _⟩ := hbmem e he
      exact hk (e.2.1, cls) hc1 (e.2.2, e.1) hc2
    have hke := keyEntries_ok bests hbk
    have hperm : List.Perm (pySorted (fun q : Entry × Int => q.2)
        (bests.map (fun e => (e, e.1.time_ms)))) (bests.map (fun e => (e, e.1.time_ms))) :=
      List.perm_insertionSort _ _
    refine ⟨(pySorted (fun q : Entry × Int => q.2)
        (bests.map (fun e => (e, e.1.time_ms)))).map (fun q => q.1), ?_, ?_, ?_, ?_⟩
    · simp only [send_laps_entries, hb]
      dsimp only [bind, Except.bind]
      rw [hke]
    · rw [← hbmap]
      have h2 := hperm.map (fun q : Entry × Int => q.1.2.1)
      simpa [List.map_map, Function.comp] using h2
    · intro e he
      obtain ⟨y, hy, hy2⟩ := List.mem_map.mp he
      have hy3 : y ∈ bests.map (fun e => (e, e.1.time_ms)) := hperm.mem_iff.mp hy
      obtain ⟨b, hbm, hb2⟩ := List.mem_map.mp hy3
      have hbe : b = e := by rw [← hy2, ← hb2]
      rw [← hbe]
      exact hbmem b hbm
    · have hsort := List.sorted_insertionSort (keyLE (fun q : Entry × Int => q.2))
        (bests.map (fun e => (e, e.1.time_ms)))
      have hshape : ∀ y ∈ pySorted (fun q : Entry × Int => q.2)
          (bests.map (fun e => (e, e.1.time_ms))), y.2 = y.1.1.time_ms := by
        intro y hy
        obtain ⟨b, _, hb2⟩ := List.mem_map.mp (hperm.mem_iff.mp hy)
        rw [← hb2]
      show List.Pairwise _ _
      rw [List.pairwise_map]
      exact hsort.imp_of_mem (fun {a b} ha hb hr => by
        have h1 := hshape a ha
        have h2 := hshape b hb
        have hr2 : a.2 ≤ b.2 := hr
        rw [h1, h2] at hr2
        exact hr2)
  · rfl

/-- Witness for C6 at the spec's scenario state: the hypotheses hold by
computation, and the computed entry list is Bob's 80000 ms best before
Alice's 83456 ms best. -/
theorem leaderboard_sorted_bests_witness :
    (∃ es, send_laps_entries mStAB = Except.ok es ∧
      List.Perm (es.map (fun e => e.2.1))
        ((mStAB.laps.filter (fun p => !p.2.isEmpty)).map Prod.fst) ∧
      (∀ e ∈ es, ∃ cls, (e.2.1, cls) ∈ mStAB.laps ∧ (e.2.2, e.1) ∈ cls ∧
        ∀ q ∈ cls, e.1.time_ms ≤ q.2.time_ms) ∧
      es.Sorted (fun a b => a.1.time_ms ≤ b.1.time_ms)) ∧
    send_laps_entries mStAB = Except.ok
      [(⟨"01:20:000", 80000, 0⟩, "Bob", some "bcar"),
       (⟨"01:23:456", 83456, 0⟩, "Alice", some "acar")] := by
  constructor
  · exact leaderboard_sorted_bests.1 mStAB (by decide)
  · rfl
